import Mathlib

/-!
Shallow embedding of the device-communication core of the `sapodilla`
repository: the Avocado packet codec (`src/protocol.rs`) and the transport
manager's bulk-transfer, correlation and job-polling logic
(`src/transports/mod.rs`).

Bytes are modelled as `Nat` values below 256; byte streams as `List Nat`.
Machine-integer wraparound is written explicitly with `% 256` / `% 2 ^ w`.
Fallible reads return `Except`.
-/

/-- The frame delimiter constant (`WRAPPER: u8 = 0x7E` in `protocol.rs`). -/
def WRAPPER : Nat := 0x7E

/-- `ContentType` enum (`protocol.rs`): `Message = 1`, `Data = 2`. -/
inductive ContentType
  | Message
  | Data
deriving DecidableEq, Repr

/-- `ContentType::to_primitive`. -/
def ContentType.toPrimitive : ContentType → Nat
  | .Message => 1
  | .Data => 2

/-- `ContentType::from_primitive`. -/
def ContentType.fromPrimitive : Nat → Option ContentType
  | 1 => some .Message
  | 2 => some .Data
  | _ => none

/-- `InteractionType` enum (`protocol.rs`): `Request = 6`, `Response = 7`. -/
inductive InteractionType
  | Request
  | Response
deriving DecidableEq, Repr

/-- `InteractionType::to_primitive`. -/
def InteractionType.toPrimitive : InteractionType → Nat
  | .Request => 6
  | .Response => 7

/-- `InteractionType::from_primitive`. -/
def InteractionType.fromPrimitive : Nat → Option InteractionType
  | 6 => some .Request
  | 7 => some .Response
  | _ => none

/-- `EncodingType` enum (`protocol.rs`): `Hexadecimal = 2`, `Json = 3`. -/
inductive EncodingType
  | Hexadecimal
  | Json
deriving DecidableEq, Repr

/-- `EncodingType::to_primitive`. -/
def EncodingType.toPrimitive : EncodingType → Nat
  | .Hexadecimal => 2
  | .Json => 3

/-- `EncodingType::from_primitive`. -/
def EncodingType.fromPrimitive : Nat → Option EncodingType
  | 2 => some .Hexadecimal
  | 3 => some .Json
  | _ => none

/-- `EncryptionMode` enum (`protocol.rs`): `None = 0b000`, `RC4 = 0b010`. -/
inductive EncryptionMode
  | None
  | RC4
deriving DecidableEq, Repr, Fintype

/-- `EncryptionMode::to_primitive`. -/
def EncryptionMode.toPrimitive : EncryptionMode → Nat
  | .None => 0
  | .RC4 => 2

/-- `EncryptionMode::from_primitive`. -/
def EncryptionMode.fromPrimitive : Nat → Option EncryptionMode
  | 0 => some .None
  | 2 => some .RC4
  | _ => none

/-- The `AvocadoPacket` struct (`protocol.rs`). Integer fields are `Nat`
with the Rust types' ranges imposed by `AvocadoPacket.wf` where a proof
needs them. -/
structure AvocadoPacket where
  version : Nat
  content_type : ContentType
  interaction_type : InteractionType
  encoding_type : EncodingType
  encryption_mode : EncryptionMode
  terminal_id : Nat
  msg_number : Nat
  msg_package_total : Nat
  msg_package_num : Nat
  is_subpackage : Bool
  data : List Nat
deriving DecidableEq, Repr

/-- Field ranges guaranteed by the Rust types (`u32`, `u16`) plus the wire
constraint that the payload length fits the 10-bit flags field. -/
def AvocadoPacket.wf (p : AvocadoPacket) : Prop :=
  p.terminal_id < 2 ^ 32 ∧ p.msg_number < 2 ^ 32 ∧
  p.msg_package_total < 2 ^ 16 ∧ p.msg_package_num < 2 ^ 16 ∧
  p.data.length ≤ 1023

instance (p : AvocadoPacket) : Decidable p.wf := by
  unfold AvocadoPacket.wf; infer_instance

/-- The `AvocadoFlags` struct (`protocol.rs`). -/
structure AvocadoFlags where
  length : Nat
  is_subpackage : Bool
  encryption_mode : EncryptionMode
deriving DecidableEq, Repr

/-- `AvocadoFlags::unpack` (`protocol.rs` lines 89-101):
`is_subpackage = ((flags & 0b0010000000000000) >> 13) > 0`,
`encryption_mode = from_primitive((flags & 0b0001110000000000) >> 10)`,
`length = flags & 0b0000001111111111`. -/
def AvocadoFlags.unpack (flags : Nat) : Option AvocadoFlags :=
  let is_subpackage := decide (0 < (flags &&& 0x2000) >>> 13)
  match EncryptionMode.fromPrimitive ((flags &&& 0x1C00) >>> 10) with
  | some encryption_mode => some { length := flags &&& 0x3FF, is_subpackage, encryption_mode }
  | none => none

/-- The flags word built inside `AvocadoPacket::encode` (`protocol.rs`
lines 193-198): `flags |= 1 << 13` when subpackage, `flags |=
encryption_mode.to_primitive() << 10`, `flags |= len & 0b0000001111111111`. -/
def packFlags (is_subpackage : Bool) (encryption_mode : EncryptionMode) (len : Nat) : Nat :=
  let f0 : Nat := if is_subpackage then 1 <<< 13 else 0
  let f1 := f0 ||| (encryption_mode.toPrimitive <<< 10)
  f1 ||| (len &&& 0x3FF)

/-- Little-endian two-byte encoding (`byteorder::WriteBytesExt::write_u16`). -/
def le16 (n : Nat) : List Nat := [n % 256, n / 256 % 256]

/-- Little-endian four-byte encoding (`byteorder::WriteBytesExt::write_u32`,
also `u32::to_le_bytes`). -/
def le32 (n : Nat) : List Nat :=
  [n % 256, n / 256 % 256, n / 65536 % 256, n / 16777216 % 256]

/-- `AvocadoPacket::checksum`: wrapping 8-bit sum of bytes. -/
def checksum (data : List Nat) : Nat :=
  data.foldl (fun sum byte => (sum + byte) % 256) 0

/-- The bytes `AvocadoPacket::encode` pushes after the leading delimiter and
before the checksum: constant version 100, reserved 0, the three enum codes,
the four little-endian integer fields, the packed flags, then the payload. -/
def encodeBody (p : AvocadoPacket) : List Nat :=
  [100, 0, p.content_type.toPrimitive, p.interaction_type.toPrimitive,
   p.encoding_type.toPrimitive] ++
  le32 p.terminal_id ++ le32 p.msg_number ++
  le16 p.msg_package_total ++ le16 p.msg_package_num ++
  le16 (packFlags p.is_subpackage p.encryption_mode p.data.length) ++
  p.data

/-- `AvocadoPacket::encode` (`protocol.rs` lines 179-205): delimiter, body,
checksum over every byte after the leading delimiter (`checksum(&buf[1..])`),
trailing delimiter. -/
def AvocadoPacket.encode (p : AvocadoPacket) : List Nat :=
  WRAPPER :: (encodeBody p ++ [checksum (encodeBody p), WRAPPER])

/-- The one kind of `std::io::Error` a pure in-memory byte source produces:
running out of bytes (`ErrorKind::UnexpectedEof`, as `read_exact` and the
`byteorder` read helpers return on short reads). -/
inductive IoErrorKind
  | UnexpectedEof
deriving DecidableEq, Repr

/-- `ProtocolError` (`protocol.rs`): a reader error or invalid data for a
named field. -/
inductive ProtocolError
  | Reader (kind : IoErrorKind)
  | InvalidData (field : String)
deriving DecidableEq, Repr

/-- `byteorder::ReadBytesExt::read_u8` over a byte list. -/
def readU8 : List Nat → Except ProtocolError (Nat × List Nat)
  | [] => .error (.Reader .UnexpectedEof)
  | b :: rest => .ok (b, rest)

/-- `read_u16::<LittleEndian>` over a byte list. -/
def readU16le (s : List Nat) : Except ProtocolError (Nat × List Nat) := do
  let (b0, s) ← readU8 s
  let (b1, s) ← readU8 s
  .ok (b0 + 256 * b1, s)

/-- `read_u32::<LittleEndian>` over a byte list. -/
def readU32le (s : List Nat) : Except ProtocolError (Nat × List Nat) := do
  let (b0, s) ← readU8 s
  let (b1, s) ← readU8 s
  let (b2, s) ← readU8 s
  let (b3, s) ← readU8 s
  .ok (b0 + 256 * b1 + 65536 * b2 + 16777216 * b3, s)

/-- `std::io::Read::read_exact` into a buffer of `n` bytes. -/
def readExact (n : Nat) (s : List Nat) : Except ProtocolError (List Nat × List Nat) :=
  if n ≤ s.length then .ok (s.take n, s.drop n)
  else .error (.Reader .UnexpectedEof)

/-- `AvocadoPacket::read_enum` (`protocol.rs` lines 211-218), with the
`PrimitiveEnum` dictionary passed explicitly. -/
def readEnum (fromPrim : Nat → Option ε) (name : String) (s : List Nat) :
    Except ProtocolError (ε × List Nat) := do
  let (b, s) ← readU8 s
  match fromPrim b with
  | some e => .ok (e, s)
  | none => .error (.InvalidData name)

/-- `AvocadoPacket::read_one` (`protocol.rs` lines 106-176), returning the
parsed packet and the unread remainder of the stream. -/
def read_one (s : List Nat) : Except ProtocolError (AvocadoPacket × List Nat) := do
  let (pfx, s) ← readU8 s
  if pfx ≠ WRAPPER then .error (.InvalidData "prefix") else do
  let (version, s) ← readU8 s
  let (_reserved, s) ← readU8 s
  let (content_type, s) ← readEnum ContentType.fromPrimitive "content_type" s
  let (interaction_type, s) ← readEnum InteractionType.fromPrimitive "interaction_type" s
  let (encoding_type, s) ← readEnum EncodingType.fromPrimitive "encoding_type" s
  let (terminal_id, s) ← readU32le s
  let (msg_number, s) ← readU32le s
  let (msg_package_total, s) ← readU16le s
  let (msg_package_num, s) ← readU16le s
  let (flagsRaw, s) ← readU16le s
  match AvocadoFlags.unpack flagsRaw with
  | none => .error (.InvalidData "flags")
  | some flags => do
    let (data, s) ← readExact flags.length s
    let (_checksum, s) ← readU8 s
    let (sfx, s) ← readU8 s
    if sfx ≠ WRAPPER then .error (.InvalidData "suffix") else
    .ok ({ version, content_type, interaction_type, encoding_type,
           encryption_mode := flags.encryption_mode, terminal_id, msg_number,
           msg_package_total, msg_package_num,
           is_subpackage := flags.is_subpackage, data }, s)

/-- `<AvocadoPacketReader as Iterator>::next` (`protocol.rs` lines 237-245):
a `Reader` error of kind `UnexpectedEof` ends iteration (`None`); every other
outcome is an item. -/
def AvocadoPacketReader.next (s : List Nat) :
    Option (Except ProtocolError (AvocadoPacket × List Nat)) :=
  match read_one s with
  | .ok pr => some (.ok pr)
  | .error (.Reader .UnexpectedEof) => none
  | .error e => some (.error e)

theorem readU8_cons (b : Nat) (s : List Nat) : readU8 (b :: s) = .ok (b, s) := rfl

theorem readU16le_le16 (n : Nat) (h : n < 2 ^ 16) (s : List Nat) :
    readU16le (le16 n ++ s) = .ok (n, s) := by
  simp only [readU16le, le16, List.cons_append, List.nil_append, readU8_cons, bind,
    Except.bind]
  have h2 : n % 256 + 256 * (n / 256 % 256) = n := by omega
  rw [h2]

theorem readU32le_le32 (n : Nat) (h : n < 2 ^ 32) (s : List Nat) :
    readU32le (le32 n ++ s) = .ok (n, s) := by
  simp only [readU32le, le32, List.cons_append, List.nil_append, readU8_cons, bind,
    Except.bind]
  have h2 : n % 256 + 256 * (n / 256 % 256) + 65536 * (n / 65536 % 256) +
      16777216 * (n / 16777216 % 256) = n := by omega
  rw [h2]

theorem readExact_append (l s : List Nat) : readExact l.length (l ++ s) = .ok (l, s) := by
  simp [readExact]

theorem ContentType.from_to_content (c : ContentType) :
    ContentType.fromPrimitive c.toPrimitive = some c := by cases c <;> rfl

theorem InteractionType.from_to_interaction (i : InteractionType) :
    InteractionType.fromPrimitive i.toPrimitive = some i := by cases i <;> rfl

theorem EncodingType.from_to_encoding (e : EncodingType) :
    EncodingType.fromPrimitive e.toPrimitive = some e := by cases e <;> rfl

set_option maxRecDepth 4096 in
/-- For every payload length that fits the 10-bit field, unpacking the flags
word that `encode` builds recovers the length, subpackage bit and encryption
mode exactly. -/
theorem unpack_packFlags : ∀ len < 1024, ∀ (sub : Bool) (enc : EncryptionMode),
    AvocadoFlags.unpack (packFlags sub enc len) = some ⟨len, sub, enc⟩ := by decide

set_option maxRecDepth 4096 in
theorem packFlags_lt : ∀ len < 1024, ∀ (sub : Bool) (enc : EncryptionMode),
    packFlags sub enc len < 2 ^ 16 := by decide

/-- Parsing a frame laid out like `encode`'s output — with an arbitrary value
`c` in the checksum position — succeeds and recovers every field, the version
coming from the wire byte 100. -/
theorem read_one_frame (p : AvocadoPacket) (c : Nat) (hwf : p.wf) :
    read_one (WRAPPER :: (encodeBody p ++ [c, WRAPPER])) =
      .ok ({ p with version := 100 }, []) := by
  obtain ⟨h1, h2, h3, h4, h5⟩ := hwf
  have hdl : p.data.length < 1024 := by omega
  have hfl := packFlags_lt p.data.length hdl p.is_subpackage p.encryption_mode
  have hup := unpack_packFlags p.data.length hdl p.is_subpackage p.encryption_mode
  simp only [read_one, encodeBody, List.cons_append, List.nil_append, List.append_assoc,
    readU8_cons, bind, Except.bind, WRAPPER]
  rw [if_neg (by decide)]
  simp only [readEnum, readU8_cons, bind, Except.bind, ContentType.from_to_content,
    InteractionType.from_to_interaction, EncodingType.from_to_encoding,
    readU32le_le32 p.terminal_id h1, readU32le_le32 p.msg_number h2,
    readU16le_le16 p.msg_package_total h3, readU16le_le16 p.msg_package_num h4,
    readU16le_le16 _ hfl, hup, readExact_append]
  rw [if_neg (by decide)]

theorem encodeBody_length (p : AvocadoPacket) :
    (encodeBody p).length = 19 + p.data.length := by
  simp [encodeBody, le32, le16]
  omega

/-- The flags layout the spec's words describe, modelled for comparison with
the code's `packFlags`: bits [0..10) = length, bit 10 = is_subpackage,
bits [11..14) = encryption mode numeric value. -/
def specFlagsPack (is_subpackage : Bool) (encryption_mode : EncryptionMode) (len : Nat) : Nat :=
  (len &&& 0x3FF) ||| ((if is_subpackage then 1 else 0) <<< 10) |||
    (encryption_mode.toPrimitive <<< 11)

/-- C1 (counterexample): with `is_subpackage = true`, encryption `None` and
length 0, the code packs the flags word 0x2000 (bit 13), while the claimed
layout (bit 10 = is_subpackage) would give 0x400, so the claim's bit layout
does not match the code. -/
theorem c1_flags_layout_counterexample :
    packFlags true EncryptionMode.None 0 = 8192 ∧
    specFlagsPack true EncryptionMode.None 0 = 1024 ∧
    packFlags true EncryptionMode.None 0 ≠ specFlagsPack true EncryptionMode.None 0 := by
  decide

/-- C1 (amended): the packed flags word places the payload length in bits
[0..10), the encryption mode numeric value shifted to bit 10 (bits 10..13),
and the is_subpackage bit at bit 13; for every combination of is_subpackage,
encryption mode and length in {0, 1, 255, 1023} the packed value matches this
layout and `AvocadoFlags.unpack` recovers the three components, and `encode`
emits exactly this word little-endian at byte offsets 18 and 19. -/
theorem c1_flags_layout :
    (∀ (sub : Bool) (enc : EncryptionMode), ∀ len ∈ ([0, 1, 255, 1023] : List Nat),
      packFlags sub enc len =
        len + enc.toPrimitive * 2 ^ 10 + (if sub then 2 ^ 13 else 0) ∧
      AvocadoFlags.unpack (packFlags sub enc len) = some ⟨len, sub, enc⟩) ∧
    (∀ p : AvocadoPacket,
      (p.encode)[18]? =
        some (packFlags p.is_subpackage p.encryption_mode p.data.length % 256) ∧
      (p.encode)[19]? =
        some (packFlags p.is_subpackage p.encryption_mode p.data.length / 256 % 256)) := by
  refine ⟨by decide, fun p => ⟨?_, ?_⟩⟩ <;>
    simp [AvocadoPacket.encode, encodeBody, le16, le32]

/-- C1 (witness): the amended layout at the concrete corner case
`is_subpackage = true`, `RC4`, length 1023. -/
theorem c1_flags_layout_witness :
    packFlags true EncryptionMode.RC4 1023 = 1023 + 2 * 2 ^ 10 + 2 ^ 13 ∧
    AvocadoFlags.unpack (packFlags true EncryptionMode.RC4 1023) =
      some ⟨1023, true, EncryptionMode.RC4⟩ := by
  have h := c1_flags_layout.1 true EncryptionMode.RC4 1023 (by decide)
  exact ⟨h.1, h.2⟩

/-- C9: the checksum byte `encode` emits — at offset `20 + data.length`, the
byte right after the payload — equals the wrapping 8-bit sum of every emitted
byte from position 1 (after the leading delimiter) through the last payload
byte inclusive. -/
theorem c9_checksum_sum (p : AvocadoPacket) :
    (p.encode)[20 + p.data.length]? =
      some (checksum ((p.encode.drop 1).take (19 + p.data.length))) := by
  have hb := encodeBody_length p
  have h20 : 20 + p.data.length = (19 + p.data.length) + 1 := by omega
  simp only [AvocadoPacket.encode, h20, List.getElem?_cons_succ, List.drop_succ_cons,
    List.drop_zero]
  rw [← hb, List.getElem?_append_right (by omega), List.take_left]
  simp

/-- C10: the version byte (offset 1) of `encode`'s output is the constant
100 whatever the packet's `version` field holds, and two packets differing
only in `version` encode to identical byte sequences. -/
theorem c10_version_not_encoded (p : AvocadoPacket) (v : Nat) :
    (p.encode)[1]? = some 100 ∧
    AvocadoPacket.encode { p with version := v } = p.encode :=
  ⟨rfl, rfl⟩

/-- C2 (counterexample): a frame whose `version` field is 0 (payload empty,
so well within the 1023-byte bound) decodes, after encoding, to a frame whose
`version` is 100 — not the original frame, so decode ∘ encode is not the
identity on every field for every valid frame. -/
def c2CexPacket : AvocadoPacket :=
  ⟨0, .Message, .Request, .Json, .None, 0, 0, 1, 1, false, []⟩

theorem c2_roundtrip_counterexample :
    read_one c2CexPacket.encode = .ok ({ c2CexPacket with version := 100 }, []) ∧
    ({ c2CexPacket with version := 100 } : AvocadoPacket) ≠ c2CexPacket := by
  exact ⟨rfl, by decide⟩

/-- C2 (amended): for every frame whose fields are in their Rust-type ranges,
whose payload is at most 1023 bytes, and whose `version` field is 100 (the
constant `encode` writes), `read_one` on `encode`'s output returns the
original frame in every field with the whole stream consumed. -/
theorem c2_roundtrip (p : AvocadoPacket) (hwf : p.wf) (hv : p.version = 100) :
    read_one p.encode = .ok (p, []) := by
  rw [AvocadoPacket.encode, read_one_frame p _ hwf]
  obtain ⟨version, rest⟩ := p
  simp_all

/-- C2 (witness): the round trip at a concrete frame with version 100 and a
three-byte payload. -/
def c2WitnessPacket : AvocadoPacket :=
  ⟨100, .Data, .Response, .Hexadecimal, .RC4, 628, 629, 3, 2, true, [1, 2, 3]⟩

theorem c2_roundtrip_witness :
    c2WitnessPacket.wf ∧ c2WitnessPacket.version = 100 ∧
    read_one c2WitnessPacket.encode = .ok (c2WitnessPacket, []) :=
  ⟨by decide, rfl, c2_roundtrip c2WitnessPacket (by decide) rfl⟩

theorem readU8_error {s : List Nat} {e : ProtocolError} (h : readU8 s = .error e) :
    e = .Reader .UnexpectedEof := by
  cases s <;> simp_all [readU8]

theorem readU16le_error {s : List Nat} {e : ProtocolError} (h : readU16le s = .error e) :
    e = .Reader .UnexpectedEof := by
  match s with
  | [] => simp_all [readU16le, readU8, bind, Except.bind]
  | [b0] => simp_all [readU16le, readU8, bind, Except.bind]
  | b0 :: b1 :: rest => simp_all [readU16le, readU8, bind, Except.bind]

theorem readU32le_error {s : List Nat} {e : ProtocolError} (h : readU32le s = .error e) :
    e = .Reader .UnexpectedEof := by
  match s with
  | [] => simp_all [readU32le, readU8, bind, Except.bind]
  | [b0] => simp_all [readU32le, readU8, bind, Except.bind]
  | [b0, b1] => simp_all [readU32le, readU8, bind, Except.bind]
  | [b0, b1, b2] => simp_all [readU32le, readU8, bind, Except.bind]
  | b0 :: b1 :: b2 :: b3 :: rest => simp_all [readU32le, readU8, bind, Except.bind]

theorem readExact_error {n : Nat} {s : List Nat} {e : ProtocolError}
    (h : readExact n s = .error e) : e = .Reader .UnexpectedEof := by
  unfold readExact at h
  split at h
  · cases h
  · cases h; rfl

theorem readEnum_error {fromPrim : Nat → Option ε} {name : String} {s : List Nat}
    {e : ProtocolError} (h : readEnum fromPrim name s = .error e) :
    e = .Reader .UnexpectedEof ∨ e = .InvalidData name := by
  match s with
  | [] => exact .inl (by simp_all [readEnum, readU8, bind, Except.bind])
  | b :: rest =>
    simp only [readEnum, readU8_cons, bind, Except.bind] at h
    split at h
    · cases h
    · cases h
      exact .inr rfl

/-- Every error `read_one` can return: an end-of-input reader error or
invalid data for one of the six validated fields. In particular no error ever
arises from the checksum byte, which is read and discarded. -/
theorem read_one_error {s : List Nat} {e : ProtocolError} (h : read_one s = .error e) :
    e = .Reader .UnexpectedEof ∨ e = .InvalidData "prefix" ∨ e = .InvalidData "suffix" ∨
    e = .InvalidData "content_type" ∨ e = .InvalidData "interaction_type" ∨
    e = .InvalidData "encoding_type" ∨ e = .InvalidData "flags" := by
  unfold read_one at h
  cases h1 : readU8 s with
  | error e1 =>
    simp only [h1, bind, Except.bind] at h
    cases h
    exact .inl (readU8_error h1)
  | ok v1 =>
  obtain ⟨pfx, s1⟩ := v1
  simp only [h1, bind, Except.bind] at h
  by_cases hpfx : pfx = WRAPPER
  case neg =>
    rw [if_pos hpfx] at h
    cases h
    exact .inr (.inl rfl)
  case pos =>
  rw [if_neg (by simp [hpfx])] at h
  cases h2 : readU8 s1 with
  | error e2 =>
    simp only [h2, bind, Except.bind] at h
    cases h
    exact .inl (readU8_error h2)
  | ok v2 =>
  obtain ⟨ver, s2⟩ := v2
  simp only [h2, bind, Except.bind] at h
  cases h3 : readU8 s2 with
  | error e3 =>
    simp only [h3, bind, Except.bind] at h
    cases h
    exact .inl (readU8_error h3)
  | ok v3 =>
  obtain ⟨rsv, s3⟩ := v3
  simp only [h3, bind, Except.bind] at h
  cases h4 : readEnum ContentType.fromPrimitive "content_type" s3 with
  | error e4 =>
    simp only [h4, bind, Except.bind] at h
    cases h
    rcases readEnum_error h4 with h' | h'
    · exact .inl h'
    · exact .inr (.inr (.inr (.inl h')))
  | ok v4 =>
  obtain ⟨ct, s4⟩ := v4
  simp only [h4, bind, Except.bind] at h
  cases h5 : readEnum InteractionType.fromPrimitive "interaction_type" s4 with
  | error e5 =>
    simp only [h5, bind, Except.bind] at h
    cases h
    rcases readEnum_error h5 with h' | h'
    · exact .inl h'
    · exact .inr (.inr (.inr (.inr (.inl h'))))
  | ok v5 =>
  obtain ⟨it, s5⟩ := v5
  simp only [h5, bind, Except.bind] at h
  cases h6 : readEnum EncodingType.fromPrimitive "encoding_type" s5 with
  | error e6 =>
    simp only [h6, bind, Except.bind] at h
    cases h
    rcases readEnum_error h6 with h' | h'
    · exact .inl h'
    · exact .inr (.inr (.inr (.inr (.inr (.inl h')))))
  | ok v6 =>
  obtain ⟨et, s6⟩ := v6
  simp only [h6, bind, Except.bind] at h
  cases h7 : readU32le s6 with
  | error e7 =>
    simp only [h7, bind, Except.bind] at h
    cases h
    exact .inl (readU32le_error h7)
  | ok v7 =>
  obtain ⟨tid, s7⟩ := v7
  simp only [h7, bind, Except.bind] at h
  cases h8 : readU32le s7 with
  | error e8 =>
    simp only [h8, bind, Except.bind] at h
    cases h
    exact .inl (readU32le_error h8)
  | ok v8 =>
  obtain ⟨msgn, s8⟩ := v8
  simp only [h8, bind, Except.bind] at h
  cases h9 : readU16le s8 with
  | error e9 =>
    simp only [h9, bind, Except.bind] at h
    cases h
    exact .inl (readU16le_error h9)
  | ok v9 =>
  obtain ⟨tot, s9⟩ := v9
  simp only [h9, bind, Except.bind] at h
  cases h10 : readU16le s9 with
  | error e10 =>
    simp only [h10, bind, Except.bind] at h
    cases h
    exact .inl (readU16le_error h10)
  | ok v10 =>
  obtain ⟨num, s10⟩ := v10
  simp only [h10, bind, Except.bind] at h
  cases h11 : readU16le s10 with
  | error e11 =>
    simp only [h11, bind, Except.bind] at h
    cases h
    exact .inl (readU16le_error h11)
  | ok v11 =>
  obtain ⟨fl, s11⟩ := v11
  simp only [h11, bind, Except.bind] at h
  cases h12 : AvocadoFlags.unpack fl with
  | none =>
    simp only [h12] at h
    cases h
    exact .inr (.inr (.inr (.inr (.inr (.inr rfl)))))
  | some flags =>
  simp only [h12] at h
  cases h13 : readExact flags.length s11 with
  | error e13 =>
    simp only [h13, bind, Except.bind] at h
    cases h
    exact .inl (readExact_error h13)
  | ok v13 =>
  obtain ⟨dat, s13⟩ := v13
  simp only [h13, bind, Except.bind] at h
  cases h14 : readU8 s13 with
  | error e14 =>
    simp only [h14, bind, Except.bind] at h
    cases h
    exact .inl (readU8_error h14)
  | ok v14 =>
  obtain ⟨cks, s14⟩ := v14
  simp only [h14, bind, Except.bind] at h
  cases h15 : readU8 s14 with
  | error e15 =>
    simp only [h15, bind, Except.bind] at h
    cases h
    exact .inl (readU8_error h15)
  | ok v15 =>
  obtain ⟨sfx, s15⟩ := v15
  simp only [h15, bind, Except.bind] at h
  by_cases hsfx : sfx = WRAPPER
  case neg =>
    rw [if_pos hsfx] at h
    cases h
    exact .inr (.inr (.inl rfl))
  case pos =>
  rw [if_neg (by simp [hsfx])] at h
  cases h

/-- C7 (counterexample): the byte stream `[0x7E]` ends partway through a
frame (the delimiter parsed, then the source ran dry), yet the streaming
reader ends iteration cleanly (`none`) instead of yielding an error item as
the claim requires for a source that ends mid-frame. -/
theorem c7_reader_counterexample :
    AvocadoPacketReader.next [0x7E] = none ∧
    read_one [0x7E] = .error (.Reader .UnexpectedEof) :=
  ⟨rfl, rfl⟩

/-- C7 (amended): iteration ends cleanly exactly when the underlying byte
source runs out of bytes — whether at a frame boundary (empty stream, or a
stream holding exactly one encoded frame) or partway through a frame — and
any structural failure (`InvalidData`) terminates iteration with an error
item, while a successful parse yields the frame. -/
theorem c7_reader_end_of_stream :
    (AvocadoPacketReader.next [] = none) ∧
    (∀ s, AvocadoPacketReader.next s = none ↔
      read_one s = .error (.Reader .UnexpectedEof)) ∧
    (∀ s f, read_one s = .error (.InvalidData f) →
      AvocadoPacketReader.next s = some (.error (.InvalidData f))) ∧
    (∀ s p rest, read_one s = .ok (p, rest) →
      AvocadoPacketReader.next s = some (.ok (p, rest))) ∧
    (∀ p : AvocadoPacket, p.wf →
      AvocadoPacketReader.next p.encode = some (.ok ({ p with version := 100 }, []))) := by
  refine ⟨rfl, fun s => ?_, fun s f h => ?_, fun s p rest h => ?_, fun p hwf => ?_⟩
  · constructor
    · intro h
      unfold AvocadoPacketReader.next at h
      split at h
      · cases h
      · next heq => rw [heq]
      · cases h
    · intro h
      simp [AvocadoPacketReader.next, h]
  · simp [AvocadoPacketReader.next, h]
  · simp [AvocadoPacketReader.next, h]
  · rw [AvocadoPacket.encode] at *
    simp [AvocadoPacketReader.next, read_one_frame p _ hwf]

/-- C7 (witness): a stream whose first byte is not the delimiter is a
structural failure and yields an error item, and the exact-frame-boundary
streams end cleanly. -/
theorem c7_reader_witness :
    read_one [0] = .error (.InvalidData "prefix") ∧
    AvocadoPacketReader.next [0] = some (.error (.InvalidData "prefix")) :=
  ⟨rfl, c7_reader_end_of_stream.2.2.1 [0] "prefix" rfl⟩

/-- C8: `read_one` never validates the checksum byte: a frame-shaped stream
with any value `c` whatsoever in the checksum position parses successfully to
the same frame, and every error `read_one` can produce is a bad leading or
trailing delimiter, an unknown enum byte, unparseable flags, or an
end-of-input reader failure — never a checksum mismatch. -/
theorem c8_checksum_not_validated :
    (∀ (p : AvocadoPacket) (c : Nat), p.wf →
      read_one (WRAPPER :: (encodeBody p ++ [c, WRAPPER])) =
        .ok ({ p with version := 100 }, [])) ∧
    (∀ (s : List Nat) (e : ProtocolError), read_one s = .error e →
      e = .Reader .UnexpectedEof ∨ e = .InvalidData "prefix" ∨
      e = .InvalidData "suffix" ∨ e = .InvalidData "content_type" ∨
      e = .InvalidData "interaction_type" ∨ e = .InvalidData "encoding_type" ∨
      e = .InvalidData "flags") :=
  ⟨fun p c hwf => read_one_frame p c hwf, fun _ _ h => read_one_error h⟩

/-- C8 (witness): a concrete frame parsed with a deliberately wrong checksum
byte (0, where the true checksum differs) still decodes to the same frame. -/
def c8WitnessPacket : AvocadoPacket :=
  ⟨100, .Message, .Response, .Json, .None, 7, 8, 1, 1, false, [42]⟩

theorem c8_checksum_witness :
    c8WitnessPacket.wf ∧
    read_one (WRAPPER :: (encodeBody c8WitnessPacket ++ [0, WRAPPER])) =
      .ok ({ c8WitnessPacket with version := 100 }, []) :=
  ⟨by decide, c8_checksum_not_validated.1 c8WitnessPacket 0 (by decide)⟩

/-- `MAX_DATA_SIZE` (`transports/mod.rs`): maximum size of data within a
message; chunks carry `MAX_DATA_SIZE - 4` payload bytes after the 4-byte
job-id prefix. -/
def MAX_DATA_SIZE : Nat := 896

/-- `usize::div_ceil(a, b)`: the quotient rounded up. -/
def div_ceil (a b : Nat) : Nat := a / b + if 0 < a % b then 1 else 0

/-- `slice::chunks(n)`: the list split into consecutive runs of `n` elements,
the last possibly shorter; an empty slice yields no chunks (meaningful for
`n ≥ 1`, the only way the source calls it). -/
def chunksOf (n : Nat) (l : List α) : List (List α) :=
  match l with
  | [] => []
  | x :: xs => (x :: xs).take n :: chunksOf n (xs.drop (n - 1))
termination_by l.length
decreasing_by simp; omega

theorem chunksOf_flatten_892 (l : List Nat) : (chunksOf 892 l).flatten = l := by
  suffices h : ∀ (n : Nat) (l : List Nat), l.length = n → (chunksOf 892 l).flatten = l from
    h _ l rfl
  intro n
  induction n using Nat.strong_induction_on with
  | _ n ih =>
    intro l hn
    match l with
    | [] => simp [chunksOf]
    | x :: xs =>
      rw [chunksOf]
      simp only [List.flatten_cons]
      have hlt : (xs.drop 891).length < n := by
        simp only [List.length_drop]
        simp only [List.length_cons] at hn
        omega
      rw [ih _ hlt _ rfl]
      have hd : (x :: xs).drop 892 = xs.drop 891 := by
        rw [show (892 : Nat) = 891 + 1 from rfl, List.drop_succ_cons]
      rw [← hd, List.take_append_drop]

theorem chunksOf_length_892 (l : List Nat) :
    (chunksOf 892 l).length = div_ceil l.length 892 := by
  suffices h : ∀ (n : Nat) (l : List Nat), l.length = n →
      (chunksOf 892 l).length = div_ceil l.length 892 from h _ l rfl
  intro n
  induction n using Nat.strong_induction_on with
  | _ n ih =>
    intro l hn
    match l with
    | [] => simp [chunksOf, div_ceil]
    | x :: xs =>
      rw [chunksOf]
      simp only [List.length_cons]
      have hlt : (xs.drop 891).length < n := by
        simp only [List.length_drop]
        simp only [List.length_cons] at hn
        omega
      rw [ih _ hlt _ rfl]
      simp only [div_ceil, List.length_drop, List.length_cons]
      split_ifs <;> omega

theorem chunksOf_getD_length_892 (l : List Nat) (i : Nat)
    (h : i < (chunksOf 892 l).length) :
    ((chunksOf 892 l).getD i []).length ≤ 892 := by
  suffices hs : ∀ (n : Nat) (l : List Nat) (i : Nat), i < (chunksOf 892 l).length →
      l.length = n → ((chunksOf 892 l).getD i []).length ≤ 892 from hs _ l i h rfl
  intro n
  induction n using Nat.strong_induction_on with
  | _ n ih =>
    intro l i h hn
    match l with
    | [] => simp [chunksOf] at h
    | x :: xs =>
      rw [chunksOf] at h ⊢
      match i with
      | 0 =>
        simp only [List.getD_cons_zero]
        simp [List.length_take]
      | i + 1 =>
        simp only [List.getD_cons_succ]
        have hlt : (xs.drop 891).length < n := by
          simp only [List.length_drop]
          simp only [List.length_cons] at hn
          omega
        simp only [List.length_cons] at h
        exact ih _ hlt _ _ (by omega) rfl

/-- The per-chunk outcome of a modelled `send_data` call. `panicked` stands
for the `u16::try_from(count).unwrap()` abort when the chunk count exceeds
`u16::MAX`. -/
inductive SendOutcome
  | ok
  | alreadySending
  | writeFailed
  | panicked
deriving DecidableEq, Repr

/-- The packet `send_data` builds for one chunk (`transports/mod.rs` lines
401-414): a `Data`/`Hexadecimal` request whose terminal id and message number
are the fresh id, package counters from the chunk loop, `is_subpackage`
exactly when more than one chunk, and payload the 4-byte little-endian job id
followed by the chunk bytes. -/
def dataPacket (id jobId count idx1 : Nat) (chunk : List Nat) : AvocadoPacket :=
  { version := 100, content_type := .Data, interaction_type := .Request,
    encoding_type := .Hexadecimal, encryption_mode := .None, terminal_id := id,
    msg_number := id, msg_package_total := count, msg_package_num := idx1,
    is_subpackage := decide (1 < count), data := le32 jobId ++ chunk }

/-- The chunk loop of `send_data` (`transports/mod.rs` lines 396-427): for
each chunk, build its packet, await the transport write (its success given by
the oracle `writeOk` at the chunk index), then report progress
`(count, index + 1)`; a failed write returns the error immediately. Returns
the outcome, the packets whose writes completed, and the progress calls. -/
def sendLoop (writeOk : Nat → Bool) (startId jobId count : Nat) :
    List (List Nat) → Nat → SendOutcome × List AvocadoPacket × List (Nat × Nat)
  | [], _ => (.ok, [], [])
  | chunk :: rest, index =>
    if writeOk index then
      let r := sendLoop writeOk startId jobId count rest (index + 1)
      (r.1, dataPacket (startId + index) jobId count (index + 1) chunk :: r.2.1,
        (count, index + 1) :: r.2.2)
    else (.writeFailed, [], [])

/-- `SendingDropGuard::new` (`transports/mod.rs` lines 442-450): an atomic
`swap(true)`; the result is the guard when the flag was clear, paired with
the flag value after the swap (always `true`). -/
def SendingDropGuard.new (sending : Bool) : Option Unit × Bool :=
  (if sending then none else some (), true)

/-- The observable result of one `send_data` call. -/
structure SendRun where
  outcome : SendOutcome
  sendingAfter : Bool
  frames : List AvocadoPacket
  progressCalls : List (Nat × Nat)
deriving DecidableEq, Repr

/-- `TransportManager::send_data` (`transports/mod.rs` lines 385-430): the
sending guard fails fast when the flag is set (the flag stays `true`, still
owned by the call in progress); otherwise the payload is split into chunks of
`MAX_DATA_SIZE - 4` bytes, `count = div_ceil(len, MAX_DATA_SIZE - 4)`; a
count above `u16::MAX` aborts on `u16::try_from(count).unwrap()` before any
chunk is sent; the drop guard clears the flag on every exit path. Message
ids for the chunks are `startId, startId + 1, …` (the global counter). -/
def send_data (sending : Bool) (writeOk : Nat → Bool) (startId jobId : Nat)
    (data : List Nat) : SendRun :=
  if sending then ⟨.alreadySending, true, [], []⟩
  else if div_ceil data.length (MAX_DATA_SIZE - 4) ≤ 65535 then
    ⟨(sendLoop writeOk startId jobId (div_ceil data.length (MAX_DATA_SIZE - 4))
        (chunksOf (MAX_DATA_SIZE - 4) data) 0).1, false,
     (sendLoop writeOk startId jobId (div_ceil data.length (MAX_DATA_SIZE - 4))
        (chunksOf (MAX_DATA_SIZE - 4) data) 0).2.1,
     (sendLoop writeOk startId jobId (div_ceil data.length (MAX_DATA_SIZE - 4))
        (chunksOf (MAX_DATA_SIZE - 4) data) 0).2.2⟩
  else ⟨.panicked, false, [], []⟩

theorem sendLoop_true (startId jobId count : Nat) :
    ∀ (chunks : List (List Nat)) (index : Nat),
      (sendLoop (fun _ => true) startId jobId count chunks index).1 = .ok ∧
      (sendLoop (fun _ => true) startId jobId count chunks index).2.1.length =
        chunks.length ∧
      (∀ i, (sendLoop (fun _ => true) startId jobId count chunks index).2.1[i]? =
        (chunks[i]?).map
          (fun c => dataPacket (startId + index + i) jobId count (index + i + 1) c)) ∧
      ((sendLoop (fun _ => true) startId jobId count chunks index).2.1.map
          (fun f => f.data.drop 4)).flatten = chunks.flatten ∧
      (sendLoop (fun _ => true) startId jobId count chunks index).2.2 =
        (List.range chunks.length).map (fun i => (count, index + i + 1)) := by
  intro chunks
  induction chunks with
  | nil => intro index; simp [sendLoop]
  | cons c rest ih =>
    intro index
    obtain ⟨ih1, ih2, ih3, ih4, ih5⟩ := ih (index + 1)
    refine ⟨by simp [sendLoop, ih1], by simp [sendLoop, ih2], fun i => ?_, ?_, ?_⟩
    · match i with
      | 0 => simp [sendLoop]
      | i + 1 =>
        have ih3i := ih3 i
        have e1 : startId + (index + 1) + i = startId + index + (i + 1) := by omega
        have e2 : index + 1 + i + 1 = index + (i + 1) + 1 := by omega
        rw [e1, e2] at ih3i
        simp [sendLoop, ih3i]
    · have hdp : (dataPacket (startId + index) jobId count (index + 1) c).data.drop 4 = c := by
        have h4 : (le32 jobId).length = 4 := rfl
        simp only [dataPacket]
        rw [← h4, List.drop_left]
      simp [sendLoop, ih4, hdp]
    · simp [sendLoop, ih5, List.range_succ_eq_map, List.map_map]
      intro a _
      omega

/-- C3 (amended): for a payload of `k * (MAX_DATA_SIZE - 4) + r` bytes with
`r < MAX_DATA_SIZE - 4`, and a chunk count within `u16::MAX` (payloads
needing more chunks abort on the `u16` conversion — see the counterexample),
`send_data` with every write succeeding returns success and emits exactly
`k` (+1 if `r > 0`) frames; the i-th frame (0-based `i`) is the
`Data`/`Hexadecimal` packet with message id `startId + i`,
`msg_package_num = i + 1`, `msg_package_total` = the chunk count,
`is_subpackage` exactly when more than one chunk, and payload the 4-byte
little-endian job id followed by the i-th chunk; stripping the 4-byte
prefixes and concatenating recovers the payload; and the progress callback
is invoked once per chunk with `(total, i + 1)` in order. -/
theorem c3_send_data_chunking (k r jobId startId : Nat) (data : List Nat)
    (hlen : data.length = k * (MAX_DATA_SIZE - 4) + r) (hr : r < MAX_DATA_SIZE - 4)
    (hcount : div_ceil data.length (MAX_DATA_SIZE - 4) ≤ 65535) :
    (send_data false (fun _ => true) startId jobId data).outcome = .ok ∧
    (send_data false (fun _ => true) startId jobId data).frames.length =
      k + (if 0 < r then 1 else 0) ∧
    (∀ i, (send_data false (fun _ => true) startId jobId data).frames[i]? =
      ((chunksOf (MAX_DATA_SIZE - 4) data)[i]?).map
        (fun c => dataPacket (startId + i) jobId
          (div_ceil data.length (MAX_DATA_SIZE - 4)) (i + 1) c)) ∧
    (∀ i f, (send_data false (fun _ => true) startId jobId data).frames[i]? = some f →
      f.content_type = .Data ∧ f.encoding_type = .Hexadecimal ∧
      f.msg_number = startId + i ∧ f.msg_package_num = i + 1 ∧
      f.msg_package_total =
        (send_data false (fun _ => true) startId jobId data).frames.length ∧
      f.is_subpackage =
        decide (1 < (send_data false (fun _ => true) startId jobId data).frames.length) ∧
      f.data = le32 jobId ++ (chunksOf (MAX_DATA_SIZE - 4) data).getD i []) ∧
    ((send_data false (fun _ => true) startId jobId data).frames.map
      (fun f => f.data.drop 4)).flatten = data ∧
    (send_data false (fun _ => true) startId jobId data).progressCalls =
      (List.range
        (send_data false (fun _ => true) startId jobId data).frames.length).map
        (fun i =>
          ((send_data false (fun _ => true) startId jobId data).frames.length, i + 1)) := by
  have h892 : MAX_DATA_SIZE - 4 = 892 := rfl
  rw [h892] at hlen hr hcount ⊢
  set cnt := div_ceil data.length 892 with hcnt
  have hchl : (chunksOf 892 data).length = cnt := chunksOf_length_892 data
  obtain ⟨l1, l2, l3, l4, l5⟩ := sendLoop_true startId jobId cnt (chunksOf 892 data) 0
  have hsd : send_data false (fun _ => true) startId jobId data =
      ⟨(sendLoop (fun _ => true) startId jobId cnt (chunksOf 892 data) 0).1, false,
       (sendLoop (fun _ => true) startId jobId cnt (chunksOf 892 data) 0).2.1,
       (sendLoop (fun _ => true) startId jobId cnt (chunksOf 892 data) 0).2.2⟩ := by
    rw [send_data]
    simp only [h892, ← hcnt, if_pos hcount, Bool.false_eq_true, if_false]
  rw [hsd]
  have hflen : (sendLoop (fun _ => true) startId jobId cnt (chunksOf 892 data) 0).2.1.length =
      cnt := by rw [l2, hchl]
  have hkr : cnt = k + (if 0 < r then 1 else 0) := by
    rw [hcnt, div_ceil, hlen]
    split_ifs <;> omega
  refine ⟨l1, hflen.trans hkr, fun i => ?_, fun i f hf => ?_, ?_, ?_⟩
  · rw [l3 i]
    simp only [show ∀ j : Nat, startId + 0 + j = startId + j from fun j => by omega,
      show ∀ j : Nat, 0 + j + 1 = j + 1 from fun j => by omega]
  · rw [l3 i] at hf
    cases hc : (chunksOf 892 data)[i]? with
    | none => rw [hc] at hf; cases hf
    | some c =>
      rw [hc] at hf
      simp only [Option.map_some', Option.some.injEq] at hf
      subst hf
      refine ⟨rfl, rfl, by simp [dataPacket], by simp [dataPacket], ?_, ?_, ?_⟩
      · simp [dataPacket, hflen]
      · simp [dataPacket, hflen]
      · simp [dataPacket, List.getD_eq_getElem?_getD, hc]
  · rw [l4, chunksOf_flatten_892]
  · rw [l5, hflen, hchl]
    simp

/-- C3 (counterexample): a payload of exactly `65536 * (MAX_DATA_SIZE - 4)`
bytes — `k = 65536`, `r = 0`, within the claim's universal quantification —
makes `send_data` abort on `u16::try_from(count).unwrap()` (the package
counters are `u16`s on the wire) instead of emitting 65536 frames, so the
claim does not hold for every payload size of the stated form. -/
theorem c3_send_data_counterexample :
    (List.replicate 58458112 (0 : Nat)).length = 65536 * (MAX_DATA_SIZE - 4) + 0 ∧
    (0 : Nat) < MAX_DATA_SIZE - 4 ∧
    (send_data false (fun _ => true) 1 0 (List.replicate 58458112 (0 : Nat))).outcome =
      .panicked ∧
    (send_data false (fun _ => true) 1 0 (List.replicate 58458112 (0 : Nat))).frames.length =
      0 := by
  have hl : (List.replicate 58458112 (0 : Nat)).length = 58458112 :=
    List.length_replicate 58458112 0
  refine ⟨by rw [hl]; decide, by decide, ?_, ?_⟩
  · simp only [send_data, Bool.false_eq_true, if_false, hl]
    rw [if_neg (by decide)]
  · simp only [send_data, Bool.false_eq_true, if_false, hl]
    rw [if_neg (by decide)]
    rfl

/-- C3 (witness): the amended chunking theorem at a concrete 5-byte payload
(`k = 0`, `r = 5`): one frame, outcome success. -/
theorem c3_send_data_witness :
    (List.replicate 5 (7 : Nat)).length = 0 * (MAX_DATA_SIZE - 4) + 5 ∧
    5 < MAX_DATA_SIZE - 4 ∧
    div_ceil (List.replicate 5 (7 : Nat)).length (MAX_DATA_SIZE - 4) ≤ 65535 ∧
    (send_data false (fun _ => true) 10 3 (List.replicate 5 (7 : Nat))).outcome = .ok ∧
    (send_data false (fun _ => true) 10 3 (List.replicate 5 (7 : Nat))).frames.length =
      0 + (if 0 < 5 then 1 else 0) :=
  ⟨by simp, by decide, by decide,
   (c3_send_data_chunking 0 5 3 10 _ (by simp) (by decide) (by decide)).1,
   (c3_send_data_chunking 0 5 3 10 _ (by simp) (by decide) (by decide)).2.1⟩

theorem sendLoop_ne_alreadySending (writeOk : Nat → Bool) (startId jobId count : Nat) :
    ∀ (chunks : List (List Nat)) (index : Nat),
      (sendLoop writeOk startId jobId count chunks index).1 ≠ .alreadySending := by
  intro chunks
  induction chunks with
  | nil => intro index; simp [sendLoop]
  | cons c rest ih =>
    intro index
    rw [sendLoop]
    split
    · exact ih (index + 1)
    · simp

/-- C4: a `send_data` call while the sending flag is set fails immediately
with the already-in-progress outcome, sends no frame and makes no progress
call (the flag stays owned by the call in progress); a call that acquires
the guard leaves the flag clear on every exit path — success, write failure
or chunk-count abort — and never reports already-in-progress; therefore a
call sequenced after a completed call is never rejected; and the atomic
swap-and-check means the second of two acquisitions always fails, so two
concurrent calls can never both proceed. -/
theorem c4_sending_guard :
    (∀ (writeOk : Nat → Bool) (startId jobId : Nat) (data : List Nat),
      send_data true writeOk startId jobId data =
        ⟨.alreadySending, true, [], []⟩) ∧
    (∀ (writeOk : Nat → Bool) (startId jobId : Nat) (data : List Nat),
      (send_data false writeOk startId jobId data).sendingAfter = false) ∧
    (∀ (writeOk : Nat → Bool) (startId jobId : Nat) (data : List Nat),
      (send_data false writeOk startId jobId data).outcome ≠ .alreadySending) ∧
    (∀ (w1 w2 : Nat → Bool) (s1 s2 j1 j2 : Nat) (d1 d2 : List Nat),
      (send_data (send_data false w1 s1 j1 d1).sendingAfter w2 s2 j2 d2).outcome ≠
        .alreadySending) ∧
    (∀ b : Bool, (SendingDropGuard.new (SendingDropGuard.new b).2).1 = none) := by
  have h2 : ∀ (writeOk : Nat → Bool) (startId jobId : Nat) (data : List Nat),
      (send_data false writeOk startId jobId data).sendingAfter = false := by
    intro w s j d
    rw [send_data, if_neg (by simp)]
    split <;> rfl
  have h3 : ∀ (writeOk : Nat → Bool) (startId jobId : Nat) (data : List Nat),
      (send_data false writeOk startId jobId data).outcome ≠ .alreadySending := by
    intro w s j d
    rw [send_data, if_neg (by simp)]
    split
    · exact sendLoop_ne_alreadySending w s j _ _ 0
    · simp
  refine ⟨fun w s j d => rfl, h2, h3, fun w1 w2 s1 s2 j1 j2 d1 d2 => ?_, fun b => rfl⟩
  rw [h2 w1 s1 j1 d1]
  exact h3 w2 s2 j2 d2

/-- `AvocadoPacket::as_json::<AvocadoId>` as the relay task uses it
(`protocol.rs` lines 66-79, `transports/mod.rs` line 227): a JSON value is
only extracted from an unencrypted JSON `Message` frame; the serde parse of
the payload for the `id` field is the external collaborator `jsonId`. -/
def as_json_id (jsonId : List Nat → Option Nat) (p : AvocadoPacket) : Option Nat :=
  if p.content_type = ContentType.Message ∧ p.encryption_mode = EncryptionMode.None ∧
      p.encoding_type = EncodingType.Json
  then jsonId p.data else none

/-- `wait_for_response`'s pending-table insertion
(`pending.lock().await.insert(packet.msg_number, tx)`). -/
def registerPending (pending : List (Nat × σ)) (msgNumber : Nat) (slot : σ) :
    List (Nat × σ) :=
  (msgNumber, slot) :: pending

/-- The relay task's `Packet` arm (`transports/mod.rs` lines 226-237): when
the frame carries an application-level JSON id registered in the pending
table, the entry is removed and the frame is delivered to that entry's slot;
otherwise the table is untouched and nothing is delivered. -/
def relayPacket (jsonId : List Nat → Option Nat) (pending : List (Nat × σ))
    (p : AvocadoPacket) : List (Nat × σ) × Option (σ × AvocadoPacket) :=
  match as_json_id jsonId p with
  | some i =>
    match List.lookup i pending with
    | some slot => (pending.filter (fun e => e.1 != i), some (slot, p))
    | none => (pending, none)
  | none => (pending, none)

/-- C5: with two outstanding `wait_for_response` registrations under distinct
ids `a` and `b`, delivering the responses in reverse order (first the frame
whose JSON id is `b`, then the one whose id is `a`) resolves each slot with
exactly its own frame and removes each entry as it is fulfilled, leaving the
table empty. -/
theorem c5_correlation (jsonId : List Nat → Option Nat) {σ : Type} (a b : Nat)
    (sa sb : σ) (pa pb : AvocadoPacket) (hab : a ≠ b)
    (ha : as_json_id jsonId pa = some a) (hb : as_json_id jsonId pb = some b) :
    (relayPacket jsonId (registerPending (registerPending [] a sa) b sb) pb).2 =
      some (sb, pb) ∧
    (relayPacket jsonId (registerPending (registerPending [] a sa) b sb) pb).1 =
      [(a, sa)] ∧
    (relayPacket jsonId
      (relayPacket jsonId (registerPending (registerPending [] a sa) b sb) pb).1 pa).2 =
      some (sa, pa) ∧
    (relayPacket jsonId
      (relayPacket jsonId (registerPending (registerPending [] a sa) b sb) pb).1 pa).1 =
      ([] : List (Nat × σ)) := by
  have h1 : relayPacket jsonId (registerPending (registerPending [] a sa) b sb) pb =
      ([(a, sa)], some (sb, pb)) := by
    simp [relayPacket, registerPending, hb, List.lookup, hab, Ne.symm hab]
  have h2 : relayPacket jsonId [(a, sa)] pa = ([], some (sa, pa)) := by
    simp [relayPacket, ha, List.lookup]
  rw [h1]
  exact ⟨rfl, rfl, by simp [h2], by simp [h2]⟩

/-- C5 (witness): two concrete registrations (ids 1 and 2) and two concrete
JSON `Message` frames delivered in reverse order, with the serde id parse
modelled as reading the first payload byte. -/
def c5PacketA : AvocadoPacket :=
  ⟨100, .Message, .Response, .Json, .None, 1, 1, 1, 1, false, [1]⟩

def c5PacketB : AvocadoPacket :=
  ⟨100, .Message, .Response, .Json, .None, 2, 2, 1, 1, false, [2]⟩

theorem c5_correlation_witness :
    (1 : Nat) ≠ 2 ∧
    as_json_id (fun l => l.head?) c5PacketA = some 1 ∧
    as_json_id (fun l => l.head?) c5PacketB = some 2 ∧
    (relayPacket (fun l => l.head?)
      (registerPending (registerPending [] 1 (10 : Nat)) 2 20) c5PacketB).2 =
      some (20, c5PacketB) ∧
    (relayPacket (fun l => l.head?)
      (relayPacket (fun l => l.head?)
        (registerPending (registerPending [] 1 (10 : Nat)) 2 20) c5PacketB).1
      c5PacketA).2 = some (10, c5PacketA) :=
  ⟨by decide, rfl, rfl,
   (c5_correlation (fun l => l.head?) 1 2 10 20 c5PacketA c5PacketB
     (by decide) rfl rfl).1,
   (c5_correlation (fun l => l.head?) 1 2 10 20 c5PacketA c5PacketB
     (by decide) rfl rfl).2.2.1⟩

/-- `JobState` enum (`protocol.rs` lines 309-319). -/
inductive JobState
  | Waiting
  | Start
  | Processing
  | ProcessingHeld
  | Pending
  | Terminating
  | Aborted
  | Cancelled
  | Completed
deriving DecidableEq, Repr

/-- `JobSubState` enum (`protocol.rs` lines 322-337). -/
inductive JobSubState
  | WaitingNone
  | StartNone
  | ProcessingNone
  | ProcessingPrintingDataDownloading
  | ProcessingPrintingDataUploading
  | ProcessingPrintingDataCloudRendering
  | ProcessingPrintingDataLocalRendering
  | ProcessingPrinting
  | ProcessingHeldNone
  | PendingNone
  | TerminatingNone
  | AbortedNone
  | CancelledNone
  | CompletedNone
deriving DecidableEq, Repr

/-- `JobStatusInfo` struct (`protocol.rs` lines 430-447). -/
structure JobStatusInfo where
  job_id : Nat
  job_state : JobState
  job_sub_state : JobSubState
  copies : Nat
  printing_page_number : Nat
  user_account : String
  channel : Nat
  media_size : Nat
  media_type : Nat
  job_type : Nat
  document_format : Nat
  file_size : Nat
  transfer_status : Nat
  transfer_size : Nat
deriving DecidableEq, Repr

/-- The terminal-state test in `poll_job` (`transports/mod.rs` lines
355-358): `matches!(info.job_state, Aborted | Cancelled | Completed)`. -/
def JobState.is_complete : JobState → Bool
  | .Aborted | .Cancelled | .Completed => true
  | _ => false

/-- What one iteration of `poll_job`'s loop encounters, abstracting the
environment the loop reads: the event sink found closed at the top of the
iteration; the correlated `wait_for_response` failing; a response that does
not decode as `AvocadoResult<Vec<JobStatusInfo>>`; the event send failing
because the sink closed after decoding; or a decoded response carrying the
listed job infos (of which the loop pops the last). -/
inductive PollInput
  | closedSink
  | waitError
  | badDecode
  | sendClosed
  | response (infos : List JobStatusInfo)

/-- The observable behaviour of one `poll_job` call: the `JobStatus` events
it emitted, how many loop iterations ran, and the returned value — `none`
when the script ran out before the loop ended (the loop would keep
polling). -/
structure PollRun where
  events : List JobStatusInfo
  iterations : Nat
  result : Option (Except String Unit)
deriving Repr

/-- `TransportManager::poll_job` (`transports/mod.rs` lines 307-379) over a
script of iteration inputs. Each iteration: stop if the sink is closed; stop
(logging) if the correlated wait errors or the response does not decode; on a
decoded response pop the *last* info (an empty list just continues), emit it
as a `JobStatus` event (stopping if the sink closed), and stop after emitting
when its state is terminal. Every exit returns `Ok(())`. -/
def poll_job : List PollInput → PollRun
  | [] => ⟨[], 0, none⟩
  | .closedSink :: _ => ⟨[], 1, some (.ok ())⟩
  | .waitError :: _ => ⟨[], 1, some (.ok ())⟩
  | .badDecode :: _ => ⟨[], 1, some (.ok ())⟩
  | .sendClosed :: _ => ⟨[], 1, some (.ok ())⟩
  | .response infos :: rest =>
    match infos.getLast? with
    | none =>
      let r := poll_job rest
      ⟨r.events, r.iterations + 1, r.result⟩
    | some info =>
      if info.job_state.is_complete then ⟨[info], 1, some (.ok ())⟩
      else
        let r := poll_job rest
        ⟨info :: r.events, r.iterations + 1, r.result⟩

/-- C6: `poll_job` never returns an error (whenever the loop ends it returns
success); the loop ends at a closed event sink, a failed correlated wait, an
undecodable response, a failed event send, or a terminal job state (emitting
that terminal `JobStatus` event first); and for a script of well-formed
single-info responses whose states are non-terminal until a final terminal
one, it returns success after exactly one iteration per response having
emitted exactly one `JobStatus` event per response, the terminal one
included. -/
theorem c6_poll_job :
    (∀ script r, (poll_job script).result = some r → r = .ok ()) ∧
    (∀ rest, poll_job (.closedSink :: rest) = ⟨[], 1, some (.ok ())⟩) ∧
    (∀ rest, poll_job (.waitError :: rest) = ⟨[], 1, some (.ok ())⟩) ∧
    (∀ rest, poll_job (.badDecode :: rest) = ⟨[], 1, some (.ok ())⟩) ∧
    (∀ rest, poll_job (.sendClosed :: rest) = ⟨[], 1, some (.ok ())⟩) ∧
    (∀ infos info rest, infos.getLast? = some info → info.job_state.is_complete = true →
      poll_job (.response infos :: rest) = ⟨[info], 1, some (.ok ())⟩) ∧
    (∀ infos : List JobStatusInfo, infos ≠ [] →
      (∀ i ∈ infos.dropLast, i.job_state.is_complete = false) →
      (∀ li, infos.getLast? = some li → li.job_state.is_complete = true) →
      poll_job (infos.map (fun i => .response [i])) =
        ⟨infos, infos.length, some (.ok ())⟩) := by
  have hok : ∀ script r, (poll_job script).result = some r → r = .ok () := by
    intro script
    induction script with
    | nil => intro r h; cases h
    | cons inp rest ih =>
      intro r h
      match inp with
      | .closedSink | .waitError | .badDecode | .sendClosed =>
        simp [poll_job] at h
        simp [h]
      | .response infos =>
        cases hgl : infos.getLast? with
        | none =>
          simp only [poll_job, hgl] at h
          exact ih r h
        | some info =>
          simp only [poll_job, hgl] at h
          split at h
          · simp_all
          · exact ih r h
  have hterm : ∀ infos info rest, infos.getLast? = some info →
      info.job_state.is_complete = true →
      poll_job (.response infos :: rest) = ⟨[info], 1, some (.ok ())⟩ := by
    intro infos info rest hgl hc
    simp [poll_job, hgl, hc]
  have hscript : ∀ infos : List JobStatusInfo, infos ≠ [] →
      (∀ i ∈ infos.dropLast, i.job_state.is_complete = false) →
      (∀ li, infos.getLast? = some li → li.job_state.is_complete = true) →
      poll_job (infos.map (fun i => .response [i])) =
        ⟨infos, infos.length, some (.ok ())⟩ := by
    intro infos
    induction infos with
    | nil => intro h; exact absurd rfl h
    | cons i rest ih =>
      intro _ hmid hlast
      match rest with
      | [] =>
        have hc : i.job_state.is_complete = true := hlast i rfl
        simp [poll_job, hc]
      | j :: rest2 =>
        have hic : i.job_state.is_complete = false := by
          refine hmid i ?_
          rw [List.dropLast_cons_of_ne_nil (by simp)]
          exact List.mem_cons_self i _
        have hrec := ih (by simp)
          (fun x hx => hmid x (by
            rw [List.dropLast_cons_of_ne_nil (by simp)]
            exact List.mem_cons_of_mem i hx))
          (fun li hli => hlast li (by
            rw [show (i :: j :: rest2).getLast? = (j :: rest2).getLast? from rfl]
            exact hli))
        simp only [List.map_cons] at hrec ⊢
        rw [poll_job]
        simp only [List.getLast?_singleton]
        rw [if_neg (by simp [hic]), hrec]
        simp
  exact ⟨hok, fun rest => rfl, fun rest => rfl, fun rest => rfl, fun rest => rfl, hterm,
    hscript⟩

/-- C6 (witness): a scripted sequence of three well-formed responses —
`Processing`, `Processing`, then `Completed` — makes `poll_job` return
success after exactly 3 iterations having emitted exactly 3 `JobStatus`
events, the terminal one included. -/
def c6Info (st : JobState) (sub : JobSubState) : JobStatusInfo :=
  ⟨42, st, sub, 1, 0, "user", 30784, 5012, 2010, 0, 0, 2000, 0, 2000⟩

theorem c6_poll_job_witness :
    poll_job ([c6Info .Processing .ProcessingPrinting,
               c6Info .Processing .ProcessingPrinting,
               c6Info .Completed .CompletedNone].map (fun i => .response [i])) =
      ⟨[c6Info .Processing .ProcessingPrinting,
        c6Info .Processing .ProcessingPrinting,
        c6Info .Completed .CompletedNone], 3, some (.ok ())⟩ :=
  c6_poll_job.2.2.2.2.2.2 _ (by simp) (by decide) (by decide)
